import Mathlib

/-!
# bluge-custom-score: a score-rewriting query/searcher decorator

A shallow embedding of `custom.go` (the `CustomScoreQuery` / `CustomScoreSearcher`
decorator) and of the parts of `main.go` that carry logic (the boost codec
`float64ToBytes` / `float64FromBytes` and the boost transformation closure handed to
`NewCustomScoreQuery`), followed by theorems about them.

Conventions of the embedding.

* A Go call that may read and write shared state and may panic is a function
  `W → Option (α × W)` over a world type `W`: `none` means the call does not return
  normally, `some (a, w)` means it returns `a` and leaves the world `w`.
* A Go multi-value return `(v, err)` is a pair; both components are kept, since Go
  allows both to be non-nil.
* A pointer or interface value that may be nil is an `Option`.
* `uint64` and `int` values that are only passed through are `Nat` and `Int`.
* A `float64` is its IEEE-754 binary64 bit pattern, a natural number below `2 ^ 64`.
* In-place mutation of a `*DocumentMatch` is rendered as returning the updated record.
-/

namespace CustomScore

/-! ## Bytes and IEEE-754 binary64 -/

/-- A Go `byte`. -/
abbrev Byte := Fin 256

/-- Go conversion `byte(v)` of an unsigned integer: keeps the low eight bits. -/
def byte (v : Nat) : Byte := ⟨v % 256, Nat.mod_lt _ (Nat.two_pow_pos 8)⟩

/-- A Go `float64`, held as its IEEE-754 binary64 bit pattern. -/
structure Float64 where
  bits : Nat
  isLt : bits < 2 ^ 64
deriving DecidableEq

/-- Go `math.Float64bits`: the bit pattern of a `float64`. -/
def Float64bits (f : Float64) : Nat := f.bits

/-- Go `math.Float64frombits`: the `float64` with the given `uint64` bit pattern. -/
def Float64frombits (b : Nat) : Float64 := ⟨b % 2 ^ 64, Nat.mod_lt _ (Nat.two_pow_pos 64)⟩

namespace Float64

/-- Sign bit (bit 63). -/
def sign (f : Float64) : Nat := f.bits / 2 ^ 63

/-- Biased exponent field (bits 62..52). -/
def expo (f : Float64) : Nat := f.bits / 2 ^ 52 % 2 ^ 11

/-- Fraction field (bits 51..0). -/
def frac (f : Float64) : Nat := f.bits % 2 ^ 52

/-- Not-a-number: exponent field all ones, fraction non-zero. -/
def isNaN (f : Float64) : Prop := f.expo = 2047 ∧ f.frac ≠ 0

/-- Infinity: exponent field all ones, fraction zero. -/
def isInf (f : Float64) : Prop := f.expo = 2047 ∧ f.frac = 0

/-- Positive or negative zero. -/
def isZero (f : Float64) : Prop := f.expo = 0 ∧ f.frac = 0

instance decIsNaN (f : Float64) : Decidable f.isNaN := by unfold isNaN; infer_instance

instance decIsInf (f : Float64) : Decidable f.isInf := by unfold isInf; infer_instance

instance decIsZero (f : Float64) : Decidable f.isZero := by unfold isZero; infer_instance

/-- Integer significand of a finite value (implicit leading bit added for normal numbers). -/
def sig (f : Float64) : Nat := if f.expo = 0 then f.frac else 2 ^ 52 + f.frac

/-- Scale of a finite value: its magnitude is `sig * 2 ^ exp2`. -/
def exp2 (f : Float64) : Int := (if f.expo = 0 then 1 else (f.expo : Int)) - 1075

/-- Index of the highest set bit, by repeated halving (`fuel` bounds the number of halvings). -/
def ilog2Aux : Nat → Nat → Nat
  | 0, _ => 0
  | fuel + 1, n => if n < 2 then 0 else ilog2Aux fuel (n / 2) + 1

/-- Index of the highest set bit of `n` (`0` for `n = 0`); `n` halvings always suffice. -/
def ilog2 (n : Nat) : Nat := ilog2Aux n n

/-- The quotient `n / 2 ^ shift` rounded to nearest, ties to even. -/
def roundShift (n shift : Nat) : Nat :=
  let q := n / 2 ^ shift
  let r := n % 2 ^ shift
  if 2 ^ shift < 2 * r ∨ (2 * r = 2 ^ shift ∧ q % 2 = 1) then q + 1 else q

/-- Bit pattern of the binary64 value nearest to `(-1)^s * n * 2 ^ e` (round to nearest, ties to
even; gradual underflow; overflow to infinity). -/
def pack (s n : Nat) (e : Int) : Nat :=
  if n = 0 then s * 2 ^ 63
  else
    let q : Int := max ((ilog2 n : Int) + e - 52) (-1074)
    let m : Nat := if q ≤ e then n * 2 ^ (e - q).toNat else roundShift n (q - e).toNat
    let body : Nat := (q + 1074).toNat * 2 ^ 52 + m
    s * 2 ^ 63 + (if 2047 * 2 ^ 52 ≤ body then 2047 * 2 ^ 52 else body)

/-- The NaN that Go's `math.NaN()` returns. Go leaves the payload of a NaN result open, so every
NaN-valued product is rendered as this one pattern; theorems only use that it is a NaN. -/
def NaN : Float64 := ⟨0x7FF8000000000001, by norm_num⟩

/-- Go `a * b` on `float64`: IEEE-754 binary64 multiplication, round to nearest even. -/
def mul (a b : Float64) : Float64 :=
  let s := (a.sign + b.sign) % 2
  if a.isNaN ∨ b.isNaN then NaN
  else if a.isInf ∨ b.isInf then
    if a.isZero ∨ b.isZero then NaN else Float64frombits (s * 2 ^ 63 + 2047 * 2 ^ 52)
  else Float64frombits (pack s (a.sig * b.sig) (a.exp2 + b.exp2))

/-- The literal `1.0`. -/
def one : Float64 := ⟨0x3FF0000000000000, by norm_num⟩

/-- The literal `2.0`. -/
def two : Float64 := ⟨0x4000000000000000, by norm_num⟩

/-- The literal `3.0`. -/
def three : Float64 := ⟨0x4008000000000000, by norm_num⟩

/-- The literal `6.0`. -/
def six : Float64 := ⟨0x4018000000000000, by norm_num⟩

end Float64

/-! ## `encoding/binary` big-endian helpers -/

/-- Go `binary.BigEndian.PutUint64(b, v)`: panics unless `b` has at least eight bytes, then
stores `v` into `b[0..7]`, most significant byte first. -/
def BigEndian.PutUint64 (b : List Byte) (v : Nat) : Option (List Byte) :=
  if 7 < b.length then
    some ((((((((b.set 0 (byte (v >>> 56))).set 1 (byte (v >>> 48))).set 2
      (byte (v >>> 40))).set 3 (byte (v >>> 32))).set 4 (byte (v >>> 24))).set 5
      (byte (v >>> 16))).set 6 (byte (v >>> 8))).set 7 (byte v))
  else none

/-- Go `binary.BigEndian.Uint64(b)`: panics unless `b` has at least eight bytes, then reads
`b[0..7]` as a big-endian `uint64`. -/
def BigEndian.Uint64 (b : List Byte) : Option Nat :=
  match b with
  | b0 :: b1 :: b2 :: b3 :: b4 :: b5 :: b6 :: b7 :: _ =>
    some ((b7.val ||| b6.val <<< 8 ||| b5.val <<< 16 ||| b4.val <<< 24 ||| b3.val <<< 32
      ||| b2.val <<< 40 ||| b1.val <<< 48 ||| b0.val <<< 56) % 2 ^ 64)
  | _ => none

/-! ## `main.go`: the boost codec -/

/-- Source `float64ToBytes` (main.go:147): eight fresh bytes holding the bit pattern of `f`. -/
def float64ToBytes (f : Float64) : Option (List Byte) :=
  let rv : List Byte := List.replicate 8 0
  let bits := Float64bits f
  BigEndian.PutUint64 rv bits

/-- Source `float64FromBytes` (main.go:154): decodes the first eight bytes of `b`; panics (`none`)
when `b` is shorter. -/
def float64FromBytes (b : List Byte) : Option Float64 :=
  match BigEndian.Uint64 b with
  | none => none
  | some bits => some (Float64frombits bits)

/-! ## Go runtime: calls, errors, nil receivers -/

/-- A Go call over the world `W`: `none` when it does not return normally (a panic),
`some (a, w)` when it returns `a` leaving the world `w`. -/
abbrev Go (W α : Type) := W → Option (α × W)

/-- A Go `error` value: a leaf error carrying its text, or the `*fmt.wrapError` that
`fmt.Errorf` builds for a format with one `%w` verb. -/
inductive GoError where
  | errorString (s : String)
  | wrapError (msg : String) (err : GoError)
deriving DecidableEq

/-- Method `Error()` of an `error`. -/
def GoError.Error : GoError → String
  | .errorString s => s
  | .wrapError msg _ => msg

/-- Go `errors.Unwrap`: the wrapped cause, if any. -/
def GoError.Unwrap : GoError → Option GoError
  | .errorString _ => none
  | .wrapError _ err => some err

/-- Go `fmt.Errorf(lead + "%w", err)` for a literal `lead` without verbs: the text is `lead`
followed by `err.Error()`, and the result unwraps to `err`. -/
def fmt.Errorf (lead : String) (err : GoError) : GoError :=
  .wrapError (lead ++ err.Error) err

/-- A method call through an interface value that may be nil: a nil receiver panics. -/
def invoke {ι W α : Type} (recv : Option ι) (method : ι → Go W α) : Go W α :=
  fun w =>
    match recv with
    | none => none
    | some x => method x w

/-! ## Library types used by the decorator -/

namespace search

/-- Modelled from the spec: `search.Explanation` and its constructor `search.NewExplanation`
are library code; an explanation is a score value, a human-readable reason and an ordered
sequence of child explanations. -/
inductive Explanation where
  | mk (Value : Float64) (Message : String) (Children : List Explanation)

/-- Field `Value` of an explanation. -/
def Explanation.Value : Explanation → Float64
  | .mk v _ _ => v

/-- Field `Message` of an explanation. -/
def Explanation.Message : Explanation → String
  | .mk _ m _ => m

/-- Field `Children` of an explanation. -/
def Explanation.Children : Explanation → List Explanation
  | .mk _ _ c => c

/-- Modelled from the spec: `search.NewExplanation(value, msg, children...)` builds the node with
that value, that message and those children in order. -/
def NewExplanation (value : Float64) (msg : String) (children : List Explanation) : Explanation :=
  .mk value msg children

/-- Modelled from the spec: `search.DocumentMatch` is library code; a match carries the
document's ordinal number, a score and an optional explanation tree. -/
structure DocumentMatch where
  Number : Nat
  Score : Float64
  Explanation : Option Explanation

/-- The two values returned by `Next` and `Advance`: `(*DocumentMatch, error)`. -/
abbrev Result := Option DocumentMatch × Option GoError

/-- The library interface `search.Searcher`, as the record of its methods. -/
structure Searcher (W Ctx : Type) where
  Next : Ctx → Go W Result
  Advance : Ctx → Nat → Go W Result
  Close : Go W (Option GoError)
  Count : Go W Nat
  Min : Go W Int
  Size : Go W Int
  DocumentMatchPoolSize : Go W Int

end search

namespace bluge

/-- The library interface `bluge.Query`: its one method builds a searcher or fails. -/
structure Query (W Ctx Rd Opt : Type) where
  Searcher : Rd → Opt → Go W (Option (search.Searcher W Ctx) × Option GoError)

end bluge

/-- The type of a transformation `func(match *search.DocumentMatch) *search.DocumentMatch`. -/
abbrev Custom (W : Type) := Option search.DocumentMatch → Go W (Option search.DocumentMatch)

/-! ## `custom.go` -/

/-- Source `CustomScoreSearcher` (custom.go:34). -/
structure CustomScoreSearcher (W Ctx : Type) where
  wrapped : Option (search.Searcher W Ctx)
  custom : Custom W

namespace CustomScoreSearcher

variable {W Ctx : Type}

/-- Source `CustomScoreSearcher.Next` (custom.go:39). -/
def Next (c : CustomScoreSearcher W Ctx) (ctx : Ctx) : Go W search.Result :=
  fun w =>
    match invoke c.wrapped (fun s => s.Next ctx) w with
    | none => none
    | some ((rv, err), w1) =>
      match err with
      | some e => some ((none, some e), w1)
      | none =>
        match c.custom rv w1 with
        | none => none
        | some (r, w2) => some ((r, none), w2)

/-- Source `CustomScoreSearcher.Advance` (custom.go:47). -/
def Advance (c : CustomScoreSearcher W Ctx) (ctx : Ctx) (number : Nat) : Go W search.Result :=
  fun w =>
    match invoke c.wrapped (fun s => s.Advance ctx number) w with
    | none => none
    | some ((rv, err), w1) =>
      match err with
      | some e => some ((none, some e), w1)
      | none =>
        match c.custom rv w1 with
        | none => none
        | some (r, w2) => some ((r, none), w2)

/-- Source `CustomScoreSearcher.Close` (custom.go:55). -/
def Close (c : CustomScoreSearcher W Ctx) : Go W (Option GoError) :=
  invoke c.wrapped (fun s => s.Close)

/-- Source `CustomScoreSearcher.Count` (custom.go:58). -/
def Count (c : CustomScoreSearcher W Ctx) : Go W Nat :=
  invoke c.wrapped (fun s => s.Count)

/-- Source `CustomScoreSearcher.Min` (custom.go:62). -/
def Min (c : CustomScoreSearcher W Ctx) : Go W Int :=
  invoke c.wrapped (fun s => s.Min)

/-- Source `CustomScoreSearcher.Size` (custom.go:66). -/
def Size (c : CustomScoreSearcher W Ctx) : Go W Int :=
  invoke c.wrapped (fun s => s.Size)

/-- Source `CustomScoreSearcher.DocumentMatchPoolSize` (custom.go:70). -/
def DocumentMatchPoolSize (c : CustomScoreSearcher W Ctx) : Go W Int :=
  invoke c.wrapped (fun s => s.DocumentMatchPoolSize)

/-- A `*CustomScoreSearcher` used as a `search.Searcher`: the interface value made of its
methods. -/
def toSearcher (c : CustomScoreSearcher W Ctx) : search.Searcher W Ctx where
  Next := c.Next
  Advance := c.Advance
  Close := c.Close
  Count := c.Count
  Min := c.Min
  Size := c.Size
  DocumentMatchPoolSize := c.DocumentMatchPoolSize

end CustomScoreSearcher

/-- Source `CustomScoreQuery` (custom.go:10). -/
structure CustomScoreQuery (W Ctx Rd Opt : Type) where
  wrapped : Option (bluge.Query W Ctx Rd Opt)
  custom : Custom W

/-- Source `NewCustomScoreQuery` (custom.go:15). -/
def NewCustomScoreQuery {W Ctx Rd Opt : Type} (q : Option (bluge.Query W Ctx Rd Opt))
    (custom : Custom W) : CustomScoreQuery W Ctx Rd Opt :=
  ⟨q, custom⟩

namespace CustomScoreQuery

variable {W Ctx Rd Opt : Type}

/-- Source `CustomScoreQuery.Searcher` (custom.go:22). -/
def Searcher (c : CustomScoreQuery W Ctx Rd Opt) (i : Rd) (options : Opt) :
    Go W (Option (search.Searcher W Ctx) × Option GoError) :=
  fun w =>
    match invoke c.wrapped (fun q => q.Searcher i options) w with
    | none => none
    | some ((searcher, err), w1) =>
      match err with
      | some e => some ((none, some (fmt.Errorf "error wrapping searcher: " e)), w1)
      | none =>
        some ((some (CustomScoreSearcher.toSearcher ⟨searcher, c.custom⟩), none), w1)

/-- A `*CustomScoreQuery` used as a `bluge.Query`. -/
def toQuery (c : CustomScoreQuery W Ctx Rd Opt) : bluge.Query W Ctx Rd Opt where
  Searcher := c.Searcher

end CustomScoreQuery

/-! ## `main.go`: the boost transformation -/

/-- Modelled from the spec: the index reader is library code. Of it the transformation uses only
`VisitStoredFields`, the stored-field visitor keyed by document ordinal. `stored n` lists the
stored `(field, value)` pairs of document `n` in visiting order; `fault n = some (k, e)` says that
a visit of document `n` fails with error `e` once `k` fields have been handed to the callback. -/
structure Reader where
  stored : Nat → List (String × List Byte)
  fault : Nat → Option (Nat × GoError)

/-- The fields are handed to the callback in order, threading the variables it captures, until
it answers `false`; the flag returned says whether every field was handed over. A panic of the
callback (`none`) propagates. -/
def Reader.walk {β : Type} (visitor : String → List Byte → β → Option (Bool × β)) :
    List (String × List Byte) → β → Option (Bool × β)
  | [], st => some (true, st)
  | (field, value) :: rest, st =>
    match visitor field value st with
    | none => none
    | some (true, st1) => Reader.walk visitor rest st1
    | some (false, st1) => some (false, st1)

/-- Modelled from the spec: `r.VisitStoredFields(number, visitor)` invokes the callback with the
`(field name, raw value)` pairs of the document and returns an error or nil. -/
def Reader.VisitStoredFields {β : Type} (r : Reader) (number : Nat)
    (visitor : String → List Byte → β → Option (Bool × β)) (st : β) :
    Option (Option GoError × β) :=
  match r.fault number with
  | none =>
    match Reader.walk visitor (r.stored number) st with
    | none => none
    | some (_, st1) => some (none, st1)
  | some (k, e) =>
    match Reader.walk visitor ((r.stored number).take k) st with
    | none => none
    | some (true, st1) => some (some e, st1)
    | some (false, st1) => some (none, st1)

namespace main

/-- The stored-field callback of the transformation (main.go:94): it overwrites the captured
`documentBoost` with the decoded value of every field named `boost` and always asks to go on. -/
def visitor (field : String) (value : List Byte) (documentBoost : Float64) :
    Option (Bool × Float64) :=
  if field = "boost" then
    match float64FromBytes value with
    | none => none
    | some f => some (true, f)
  else some (true, documentBoost)

/-- The transformation handed to `NewCustomScoreQuery` (main.go:91), closed over the reader `r`.
The result is `none` when the call panics. -/
def custom (r : Reader) (m : Option search.DocumentMatch) : Option (Option search.DocumentMatch) :=
  match m with
  | none => some none
  | some dm =>
    match r.VisitStoredFields dm.Number visitor Float64.one with
    | none => none
    | some (_, documentBoost) =>
      let origScore := dm.Score
      let score := origScore.mul documentBoost
      let explanation :=
        match dm.Explanation with
        | none => none
        | some e =>
          some (search.NewExplanation score "custom, doc_boost * orig_score"
            [search.NewExplanation documentBoost "doc_boost, loaded from field 'boost'" [], e])
      some (some ⟨dm.Number, score, explanation⟩)

end main

/-! ## Vocabulary of the statements -/

/-- The fields a visit of document `number` hands to the callback before it ends. -/
def Reader.presented (r : Reader) (number : Nat) : List (String × List Byte) :=
  match r.fault number with
  | none => r.stored number
  | some (k, _) => (r.stored number).take k

/-- The value of the last field named `boost` among `fields`, if there is one. -/
def lastBoost : List (String × List Byte) → Option (List Byte)
  | [] => none
  | (field, value) :: rest =>
    match lastBoost rest with
    | some v => some v
    | none => if field = "boost" then some value else none

/-- Every value stored under the name `boost` among `fields` has at least eight bytes. -/
def boostsDecodable (fields : List (String × List Byte)) : Prop :=
  ∀ fv ∈ fields, fv.1 = "boost" → 8 ≤ fv.2.length

instance decBoostsDecodable (fields : List (String × List Byte)) :
    Decidable (boostsDecodable fields) := by
  unfold boostsDecodable; infer_instance

/-- The transformation `func(m) { return m }`. -/
def identity {W : Type} : Custom W := fun m w => some (m, w)

/-- The transformation that runs `T1` and hands its result to `T2`. -/
def andThen {W : Type} (T1 T2 : Custom W) : Custom W :=
  fun m w =>
    match T1 m w with
    | none => none
    | some (m1, w1) => T2 m1 w1

/-- One call a client makes on a searcher. -/
inductive Call (Ctx : Type) where
  | Next (ctx : Ctx)
  | Advance (ctx : Ctx) (number : Nat)

/-- Performs one client call. -/
def search.Searcher.call {W Ctx : Type} (s : search.Searcher W Ctx) : Call Ctx → Go W search.Result
  | .Next ctx => s.Next ctx
  | .Advance ctx number => s.Advance ctx number

/-- Performs a sequence of client calls in order and collects the results. -/
def search.Searcher.drive {W Ctx : Type} (s : search.Searcher W Ctx) :
    List (Call Ctx) → Go W (List search.Result)
  | [], w => some ([], w)
  | c :: cs, w =>
    match s.call c w with
    | none => none
    | some (r, w1) =>
      match search.Searcher.drive s cs w1 with
      | none => none
      | some (rs, w2) => some (r :: rs, w2)

/-- A result as a client following the Go convention reads it: with an error, the match is
ignored. -/
def search.Result.onError (r : search.Result) : search.Result :=
  match r.2 with
  | some e => (none, some e)
  | none => r

/-- Ghost instrumentation: the transformation `T` with a counter of its invocations added to the
world. -/
def counted {W : Type} (T : Custom W) : Custom (W × Nat) :=
  fun m wn =>
    match T m wn.1 with
    | none => none
    | some (r, w) => some (r, (w, wn.2 + 1))

/-- A call that runs on the world and leaves the invocation counter alone. -/
def framed {W α : Type} (g : Go W α) : Go (W × Nat) α :=
  fun wn =>
    match g wn.1 with
    | none => none
    | some (a, w) => some (a, (w, wn.2))

/-- A searcher lifted to the world with the invocation counter. -/
def search.Searcher.framed {W Ctx : Type} (s : search.Searcher W Ctx) :
    search.Searcher (W × Nat) Ctx where
  Next := fun ctx => CustomScore.framed (s.Next ctx)
  Advance := fun ctx number => CustomScore.framed (s.Advance ctx number)
  Close := CustomScore.framed s.Close
  Count := CustomScore.framed s.Count
  Min := CustomScore.framed s.Min
  Size := CustomScore.framed s.Size
  DocumentMatchPoolSize := CustomScore.framed s.DocumentMatchPoolSize

/-! ## Sample inputs -/

namespace Sample

/-- A match for document 0 with score 3.0 and no explanation. -/
def docA : search.DocumentMatch := ⟨0, Float64.three, none⟩

/-- The explanation carried by `docB`. -/
def explB : search.Explanation := search.NewExplanation Float64.three "weight(desc:cat)" []

/-- A match for document 1 with score 3.0 and an explanation. -/
def docB : search.DocumentMatch := ⟨1, Float64.three, some explB⟩

/-- An error raised by an inner searcher or query. -/
def exhausted : GoError := .errorString "segment closed"

/-- A searcher that replays a script of results; the world is the cursor position. `Advance`
starts from the later of the cursor and the target. -/
def scripted (rs : List search.Result) : search.Searcher Nat Unit where
  Next := fun _ pos => some (rs.getD pos (none, none), pos + 1)
  Advance := fun _ number pos => some (rs.getD (max pos number) (none, none), max pos number + 1)
  Close := fun pos => some (none, pos)
  Count := fun pos => some (rs.length, pos)
  Min := fun pos => some (0, pos)
  Size := fun pos => some (64, pos)
  DocumentMatchPoolSize := fun pos => some (1, pos)

/-- Script: two matches, then exhaustion. -/
def twoDocs : List search.Result := [(some docA, none), (some docB, none), (none, none)]

/-- Script: one match, then an error. -/
def failing : List search.Result := [(some docA, none), (none, some exhausted)]

/-- A query whose `Searcher` returns the given pair unconditionally. -/
def constQuery (out : Option (search.Searcher Nat Unit) × Option GoError) :
    bluge.Query Nat Unit Unit Unit where
  Searcher := fun _ _ w => some (out, w)

/-- A transformation that doubles the score of a non-nil match. -/
def double : Custom Nat :=
  fun m w =>
    match m with
    | none => some (none, w)
    | some dm => some (some ⟨dm.Number, dm.Score.mul Float64.two, dm.Explanation⟩, w)

/-- A transformation that moves a non-nil match to the next document number. -/
def shift : Custom Nat :=
  fun m w =>
    match m with
    | none => some (none, w)
    | some dm => some (some ⟨dm.Number + 1, dm.Score, dm.Explanation⟩, w)

/-- The reader of the example index: documents 0 and 1 store their id and a boost of 1.0 and
2.0; document 2 stores no boost; document 3 stores a seven-byte boost; document 4 a nine-byte
one; visits of document 5 fail after the id, before the boost is reached. -/
def reader : Reader where
  stored := fun n =>
    if n = 0 then [("_id", [97]), ("boost", [0x3F, 0xF0, 0, 0, 0, 0, 0, 0])]
    else if n = 1 then [("_id", [98]), ("boost", [0x40, 0, 0, 0, 0, 0, 0, 0])]
    else if n = 2 then [("_id", [99])]
    else if n = 3 then [("_id", [100]), ("boost", [0x40, 0, 0, 0, 0, 0, 0])]
    else if n = 4 then [("_id", [101]), ("boost", [0x40, 0, 0, 0, 0, 0, 0, 0, 0])]
    else if n = 5 then [("_id", [102]), ("boost", [0x40, 0, 0, 0, 0, 0, 0, 0])]
    else []
  fault := fun n => if n = 5 then some (1, .errorString "read failed") else none

/-- A reader over an index whose document 0 stores its id and a `boost` cut short to three
bytes; visits never fail. -/
def truncated : Reader where
  stored := fun n => if n = 0 then [("_id", [97]), ("boost", [0x3F, 0xF0, 0])] else []
  fault := fun _ => none

end Sample

/-! ## Facts about the binary64 model -/

namespace Float64

theorem ilog2Aux_spec : ∀ fuel n, n ≤ fuel → n ≠ 0 →
    2 ^ ilog2Aux fuel n ≤ n ∧ n < 2 ^ (ilog2Aux fuel n + 1)
  | 0, n, h, hn => by omega
  | fuel + 1, n, h, hn => by
    unfold ilog2Aux
    split
    · constructor <;> simp <;> omega
    · have ih := ilog2Aux_spec fuel (n / 2) (by omega) (by omega)
      rw [pow_succ, pow_succ (n := ilog2Aux fuel (n / 2) + 1)]
      constructor <;> omega

theorem ilog2_spec (n : Nat) (hn : n ≠ 0) : 2 ^ ilog2 n ≤ n ∧ n < 2 ^ (ilog2 n + 1) :=
  ilog2Aux_spec n n (Nat.le_refl n) hn

theorem ilog2_lt (n k : Nat) (hn : n ≠ 0) (h : n < 2 ^ k) : ilog2 n < k := by
  have h1 := (ilog2_spec n hn).1
  exact (Nat.pow_lt_pow_iff_right (by decide : 1 < 2)).1 (Nat.lt_of_le_of_lt h1 h)

theorem ilog2_eq (n k : Nat) (h1 : 2 ^ k ≤ n) (h2 : n < 2 ^ (k + 1)) : ilog2 n = k := by
  have hn : n ≠ 0 := by
    have := Nat.two_pow_pos k
    omega
  have h3 := ilog2_lt n (k + 1) hn h2
  have h4 := (ilog2_spec n hn).2
  have h5 : k < ilog2 n + 1 :=
    (Nat.pow_lt_pow_iff_right (by decide : 1 < 2)).1 (Nat.lt_of_le_of_lt h1 h4)
  omega

theorem roundShift_mul (a k : Nat) : roundShift (a * 2 ^ k) k = a := by
  have hk : 0 < 2 ^ k := Nat.two_pow_pos k
  simp [roundShift, Nat.mul_div_cancel _ hk, Nat.mul_mod_left]
  omega

theorem bits_split (v : Nat) (hv : v < 2 ^ 64) :
    v = v / 2 ^ 63 * 2 ^ 63 + v / 2 ^ 52 % 2 ^ 11 * 2 ^ 52 + v % 2 ^ 52 ∧ v / 2 ^ 63 < 2
      ∧ v / 2 ^ 52 % 2 ^ 11 < 2048 ∧ v % 2 ^ 52 < 2 ^ 52 := by
  norm_num at hv ⊢
  omega

theorem pack_round (s n : Nat) (e q : Int) (k : Nat) (hn : n ≠ 0)
    (hq : max ((ilog2 n : Int) + e - 52) (-1074) = q) (hk : (q - e).toNat = k) (hlt : ¬ q ≤ e) :
    pack s n e = s * 2 ^ 63 + (if 2047 * 2 ^ 52 ≤ (q + 1074).toNat * 2 ^ 52 + roundShift n k
      then 2047 * 2 ^ 52 else (q + 1074).toNat * 2 ^ 52 + roundShift n k) := by
  subst hq
  subst hk
  unfold pack
  rw [if_neg hn]
  simp only [if_neg hlt]

theorem pack_exact (s g e : Nat) (hg : g ≠ 0) (he : e < 2047)
    (hn : e = 0 → g < 2 ^ 52) (hp : e ≠ 0 → 2 ^ 52 ≤ g ∧ g < 2 ^ 53) :
    pack s (g * 2 ^ 52) ((if e = 0 then 1 else (e : Int)) - 1075 + -52)
      = s * 2 ^ 63 + (e * 2 ^ 52 + g - (if e = 0 then 0 else 2 ^ 52)) := by
  have hne : g * 2 ^ 52 ≠ 0 := Nat.mul_ne_zero hg (by norm_num)
  by_cases h0 : e = 0
  · subst h0
    have hL := ilog2_lt (g * 2 ^ 52) 104 hne (by have := hn rfl; norm_num at this ⊢; omega)
    simp only [if_true]
    rw [pack_round s (g * 2 ^ 52) _ (-1074) 52 hne (by omega) (by decide) (by decide),
      roundShift_mul]
    have := hn rfl
    norm_num at this ⊢
    omega
  · have ⟨hp1, hp2⟩ := hp h0
    have hL := ilog2_eq (g * 2 ^ 52) 104 (by norm_num at hp1 ⊢; omega) (by norm_num at hp2 ⊢; omega)
    simp only [if_neg h0]
    rw [pack_round s (g * 2 ^ 52) _ ((e : Int) - 1075) 52 hne (by rw [hL]; omega) (by omega)
      (by omega), roundShift_mul]
    have he1 : ((e : Int) - 1075 + 1074).toNat = e - 1 := by omega
    rw [he1]
    norm_num at hp1 hp2 ⊢
    rw [if_neg (by omega)]
    omega

/-- Multiplying by `1.0` is exact: every value that is not a NaN comes back bit for bit. -/
theorem mul_one (x : Float64) (h : ¬ x.isNaN) : mul x one = x := by
  obtain ⟨v, hv⟩ := x
  have h1s : one.sign = 0 := by decide
  have h1n : ¬ one.isNaN := by decide
  have h1i : ¬ one.isInf := by decide
  have h1z : ¬ one.isZero := by decide
  have h1g : one.sig = 2 ^ 52 := by decide
  have h1e : one.exp2 = -52 := by decide
  obtain ⟨hsplit, hsg, hex, hfr⟩ := bits_split v hv
  unfold mul
  simp only [h, h1s, h1n, h1i, h1z, h1g, h1e, or_false, if_false]
  simp only [isNaN, isInf, isZero, sign, expo, frac, sig, exp2] at h ⊢
  unfold Float64frombits
  generalize v / 2 ^ 63 = sg at *
  generalize v / 2 ^ 52 % 2 ^ 11 = e at *
  generalize v % 2 ^ 52 = f at *
  have hs2 : (sg + 0) % 2 = sg := by omega
  rw [hs2]
  by_cases hinf : e = 2047
  · have hf : f = 0 := by simpa [hinf] using h
    rw [if_pos ⟨hinf, hf⟩, if_neg (by omega)]
    simp only [Float64.mk.injEq]
    norm_num at hv hsplit ⊢
    omega
  · rw [if_neg (fun hc => hinf hc.1)]
    simp only [Float64.mk.injEq]
    by_cases hz : (if e = 0 then f else 2 ^ 52 + f) = 0
    · rw [hz]
      have : e = 0 ∧ f = 0 := by
        split at hz
        · exact ⟨by assumption, hz⟩
        · norm_num at hz
      simp only [pack, Nat.zero_mul, if_true]
      norm_num at hv hsplit ⊢
      omega
    · rw [pack_exact sg _ e hz (by omega) (by intro h0; simp [h0]; omega)
        (by intro h0; simp [h0]; norm_num at hfr ⊢; omega)]
      split <;> norm_num at hv hsplit hfr ⊢ <;> omega

/-- A product with a NaN factor on the left is a NaN. -/
theorem mul_nan (x y : Float64) (h : x.isNaN) : (mul x y).isNaN := by
  unfold mul
  simp only [h, true_or, if_true]
  decide

end Float64

/-! ## Facts about the byte codec -/

theorem or_shift (a b k : Nat) (h : a < 2 ^ k) : a ||| b <<< k = a + b * 2 ^ k := by
  rw [Nat.or_comm, Nat.shiftLeft_eq, Nat.mul_comm b, ← Nat.mul_add_lt_is_or h]; omega

theorem or_bytes (b0 b1 b2 b3 b4 b5 b6 b7 : Nat) (h1 : b1 < 256) (h2 : b2 < 256)
    (h3 : b3 < 256) (h4 : b4 < 256) (h5 : b5 < 256) (h6 : b6 < 256) (h7 : b7 < 256) :
    (b7 ||| b6 <<< 8 ||| b5 <<< 16 ||| b4 <<< 24 ||| b3 <<< 32 ||| b2 <<< 40 ||| b1 <<< 48
      ||| b0 <<< 56)
    = b7 + b6 * 2 ^ 8 + b5 * 2 ^ 16 + b4 * 2 ^ 24 + b3 * 2 ^ 32 + b2 * 2 ^ 40 + b1 * 2 ^ 48
      + b0 * 2 ^ 56 := by
  rw [or_shift b7 b6 8 (by omega), or_shift _ b5 16 (by omega), or_shift _ b4 24 (by omega),
    or_shift _ b3 32 (by omega), or_shift _ b2 40 (by omega), or_shift _ b1 48 (by omega),
    or_shift _ b0 56 (by omega)]

theorem float64ToBytes_eq (f : Float64) :
    float64ToBytes f = some [byte (f.bits / 2 ^ 56), byte (f.bits / 2 ^ 48),
      byte (f.bits / 2 ^ 40), byte (f.bits / 2 ^ 32), byte (f.bits / 2 ^ 24),
      byte (f.bits / 2 ^ 16), byte (f.bits / 2 ^ 8), byte f.bits] := by
  simp [float64ToBytes, BigEndian.PutUint64, Float64bits, Nat.shiftRight_eq_div_pow,
    List.replicate]

theorem float64FromBytes_bytes (f : Float64) (tail : List Byte) :
    float64FromBytes (byte (f.bits / 2 ^ 56) :: byte (f.bits / 2 ^ 48) :: byte (f.bits / 2 ^ 40)
      :: byte (f.bits / 2 ^ 32) :: byte (f.bits / 2 ^ 24) :: byte (f.bits / 2 ^ 16)
      :: byte (f.bits / 2 ^ 8) :: byte f.bits :: tail) = some f := by
  obtain ⟨v, hv⟩ := f
  simp only [float64FromBytes, BigEndian.Uint64, byte, Float64frombits]
  rw [or_bytes _ _ _ _ _ _ _ _ (Nat.mod_lt _ (by decide))
    (Nat.mod_lt _ (by decide)) (Nat.mod_lt _ (by decide)) (Nat.mod_lt _ (by decide))
    (Nat.mod_lt _ (by decide)) (Nat.mod_lt _ (by decide)) (Nat.mod_lt _ (by decide))]
  simp only [Option.some.injEq, Float64.mk.injEq]
  omega

theorem float64FromBytes_isSome (v : List Byte) (h : 8 ≤ v.length) :
    ∃ f, float64FromBytes v = some f := by
  match v, h with
  | b0 :: b1 :: b2 :: b3 :: b4 :: b5 :: b6 :: b7 :: _, _ =>
    exact ⟨_, rfl⟩

theorem float64FromBytes_short (v : List Byte) (h : v.length < 8) :
    float64FromBytes v = none := by
  match v, h with
  | [], _ => rfl
  | [_], _ => rfl
  | [_, _], _ => rfl
  | [_, _, _], _ => rfl
  | [_, _, _, _], _ => rfl
  | [_, _, _, _, _], _ => rfl
  | [_, _, _, _, _, _], _ => rfl
  | [_, _, _, _, _, _, _], _ => rfl
  | _ :: _ :: _ :: _ :: _ :: _ :: _ :: _ :: _, h => simp at h; omega

/-- C7: for every float64 `f`, `float64ToBytes f` returns exactly eight bytes, the bit pattern
of `f` most significant byte first, and `float64FromBytes` of those bytes returns `f` with the
identical bit pattern; in particular for 1.0, 2.0, 0.0, a negative value, the largest finite
value and the smallest subnormal. -/
theorem float64_bytes_roundtrip (f : Float64) :
    ∃ bs, float64ToBytes f = some bs ∧ bs.length = 8
      ∧ bs = [byte (f.bits / 2 ^ 56), byte (f.bits / 2 ^ 48), byte (f.bits / 2 ^ 40),
          byte (f.bits / 2 ^ 32), byte (f.bits / 2 ^ 24), byte (f.bits / 2 ^ 16),
          byte (f.bits / 2 ^ 8), byte f.bits]
      ∧ (∃ g, float64FromBytes bs = some g ∧ g = f ∧ Float64bits g = Float64bits f)
      ∧ float64ToBytes Float64.one = some [0x3F, 0xF0, 0, 0, 0, 0, 0, 0]
      ∧ float64ToBytes Float64.two = some [0x40, 0, 0, 0, 0, 0, 0, 0]
      ∧ float64ToBytes (Float64frombits 0) = some [0, 0, 0, 0, 0, 0, 0, 0]
      ∧ float64ToBytes (Float64frombits 0xC004000000000000)
          = some [0xC0, 0x04, 0, 0, 0, 0, 0, 0]
      ∧ float64ToBytes (Float64frombits 0x7FEFFFFFFFFFFFFF)
          = some [0x7F, 0xEF, 0xFF, 0xFF, 0xFF, 0xFF, 0xFF, 0xFF]
      ∧ float64ToBytes (Float64frombits 1) = some [0, 0, 0, 0, 0, 0, 0, 1] := by
  refine ⟨_, float64ToBytes_eq f, rfl, rfl, ⟨f, float64FromBytes_bytes f [], rfl, rfl⟩, ?_, ?_,
    ?_, ?_, ?_, ?_⟩ <;> decide

/-! ## The decorator -/

/-- C1: whenever the inner `Next` (respectively `Advance` with the same target `n`) returns a
match `m`, nil included, with no error, the decorated call returns exactly the outcome of `T m`
with no error, `T` being run in the world the inner call left; with an invocation counter added,
the counter goes up by exactly one. -/
theorem next_advance_apply_custom {W Ctx : Type} (s : search.Searcher W Ctx) (T : Custom W)
    (ctx : Ctx) (n : Nat) (w w1 : W) (m : Option search.DocumentMatch) :
    (s.Next ctx w = some ((m, none), w1) →
      (CustomScoreSearcher.mk (some s) T).Next ctx w
          = (T m w1).map (fun p => ((p.1, none), p.2))
        ∧ ∀ k, (CustomScoreSearcher.mk (some s.framed) (counted T)).Next ctx (w, k)
          = (T m w1).map (fun p => ((p.1, none), (p.2, k + 1))))
    ∧ (s.Advance ctx n w = some ((m, none), w1) →
      (CustomScoreSearcher.mk (some s) T).Advance ctx n w
          = (T m w1).map (fun p => ((p.1, none), p.2))
        ∧ ∀ k, (CustomScoreSearcher.mk (some s.framed) (counted T)).Advance ctx n (w, k)
          = (T m w1).map (fun p => ((p.1, none), (p.2, k + 1)))) := by
  constructor
  · intro h
    constructor
    · simp only [CustomScoreSearcher.Next, invoke, h]
      cases T m w1 <;> rfl
    · intro k
      simp only [CustomScoreSearcher.Next, invoke, search.Searcher.framed, framed, h, counted]
      cases T m w1 <;> rfl
  · intro h
    constructor
    · simp only [CustomScoreSearcher.Advance, invoke, h]
      cases T m w1 <;> rfl
    · intro k
      simp only [CustomScoreSearcher.Advance, invoke, search.Searcher.framed, framed, h, counted]
      cases T m w1 <;> rfl

set_option maxRecDepth 100000 in
/-- Witness for C1: over the two-document script, the first `Next` returns document 0 with its
score 3.0 doubled to 6.0, an `Advance` to document 1 returns document 1 doubled, and the
invocation counter moves from 7 to 8. -/
theorem next_advance_apply_custom_witness :
    ((CustomScoreSearcher.mk (some (Sample.scripted Sample.twoDocs)) Sample.double).Next () 0
        = some ((some ⟨0, Float64.six, none⟩, none), 1)
      ∧ (CustomScoreSearcher.mk (some (Sample.scripted Sample.twoDocs).framed)
            (counted Sample.double)).Next () (0, 7)
        = some ((some ⟨0, Float64.six, none⟩, none), (1, 8)))
    ∧ ((CustomScoreSearcher.mk (some (Sample.scripted Sample.twoDocs)) Sample.double).Advance
          () 1 0
        = some ((some ⟨1, Float64.six, some Sample.explB⟩, none), 2)
      ∧ (CustomScoreSearcher.mk (some (Sample.scripted Sample.twoDocs).framed)
            (counted Sample.double)).Advance () 1 (0, 7)
        = some ((some ⟨1, Float64.six, some Sample.explB⟩, none), (2, 8))) :=
  ⟨⟨((next_advance_apply_custom (Sample.scripted Sample.twoDocs) Sample.double () 1 0 1
      (some Sample.docA)).1 rfl).1,
    ((next_advance_apply_custom (Sample.scripted Sample.twoDocs) Sample.double () 1 0 1
      (some Sample.docA)).1 rfl).2 7⟩,
    ⟨((next_advance_apply_custom (Sample.scripted Sample.twoDocs) Sample.double () 1 0 2
      (some Sample.docB)).2 rfl).1,
    ((next_advance_apply_custom (Sample.scripted Sample.twoDocs) Sample.double () 1 0 2
      (some Sample.docB)).2 rfl).2 7⟩⟩

/-- C2: a decorated `Next` or `Advance` returns an error exactly when the inner call returned
one; the error is then the inner error itself, the match is nil, and the world is the one the
inner call left, so `T` has not run: with an invocation counter added, the counter is unchanged.
This holds even for an inner call that returns a match together with its error. -/
theorem error_iff_inner_error {W Ctx : Type} (s : search.Searcher W Ctx) (T : Custom W)
    (ctx : Ctx) (n : Nat) (w : W) :
    (∀ r e w1, (CustomScoreSearcher.mk (some s) T).Next ctx w = some ((r, some e), w1)
        ↔ r = none ∧ ∃ rv, s.Next ctx w = some ((rv, some e), w1))
    ∧ (∀ r e w1, (CustomScoreSearcher.mk (some s) T).Advance ctx n w = some ((r, some e), w1)
        ↔ r = none ∧ ∃ rv, s.Advance ctx n w = some ((rv, some e), w1))
    ∧ (∀ rv e w1 k, s.Next ctx w = some ((rv, some e), w1) →
        (CustomScoreSearcher.mk (some s.framed) (counted T)).Next ctx (w, k)
          = some ((none, some e), (w1, k)))
    ∧ (∀ rv e w1 k, s.Advance ctx n w = some ((rv, some e), w1) →
        (CustomScoreSearcher.mk (some s.framed) (counted T)).Advance ctx n (w, k)
          = some ((none, some e), (w1, k))) := by
  refine ⟨?_, ?_, ?_, ?_⟩
  · intro r e w1
    simp only [CustomScoreSearcher.Next, invoke]
    cases hs : s.Next ctx w with
    | none => simp
    | some out =>
      obtain ⟨⟨rv, err⟩, w2⟩ := out
      cases err with
      | some e2 =>
        simp only [Option.some.injEq, Prod.mk.injEq]
        constructor
        · rintro ⟨⟨h1, h2⟩, h3⟩
          exact ⟨h1.symm, rv, ⟨rfl, h2⟩, h3⟩
        · rintro ⟨h1, _, ⟨_, h2⟩, h3⟩
          exact ⟨⟨h1.symm, h2⟩, h3⟩
      | none =>
        cases hT : T rv w2 with
        | none => simp [hT]
        | some p => simp [hT]
  · intro r e w1
    simp only [CustomScoreSearcher.Advance, invoke]
    cases hs : s.Advance ctx n w with
    | none => simp
    | some out =>
      obtain ⟨⟨rv, err⟩, w2⟩ := out
      cases err with
      | some e2 =>
        simp only [Option.some.injEq, Prod.mk.injEq]
        constructor
        · rintro ⟨⟨h1, h2⟩, h3⟩
          exact ⟨h1.symm, rv, ⟨rfl, h2⟩, h3⟩
        · rintro ⟨h1, _, ⟨_, h2⟩, h3⟩
          exact ⟨⟨h1.symm, h2⟩, h3⟩
      | none =>
        cases hT : T rv w2 with
        | none => simp [hT]
        | some p => simp [hT]
  · intro rv e w1 k h
    simp only [CustomScoreSearcher.Next, invoke, search.Searcher.framed, framed, h]
  · intro rv e w1 k h
    simp only [CustomScoreSearcher.Advance, invoke, search.Searcher.framed, framed, h]

/-- Witness for C2: over the failing script the second `Next` (cursor 1) and an `Advance` to
position 1 return the inner error itself with a nil match, and the counter stays at 7. -/
theorem error_iff_inner_error_witness :
    (CustomScoreSearcher.mk (some (Sample.scripted Sample.failing)) Sample.double).Next () 1
        = some ((none, some Sample.exhausted), 2)
    ∧ (CustomScoreSearcher.mk (some (Sample.scripted Sample.failing)) Sample.double).Advance
          () 1 0 = some ((none, some Sample.exhausted), 2)
    ∧ (CustomScoreSearcher.mk (some (Sample.scripted Sample.failing).framed)
          (counted Sample.double)).Next () (1, 7) = some ((none, some Sample.exhausted), (2, 7))
    ∧ (CustomScoreSearcher.mk (some (Sample.scripted Sample.failing).framed)
          (counted Sample.double)).Advance () 1 (0, 7)
        = some ((none, some Sample.exhausted), (2, 7)) :=
  ⟨((error_iff_inner_error (Sample.scripted Sample.failing) Sample.double () 1 1).1 none
      Sample.exhausted 2).2 ⟨rfl, none, rfl⟩,
    ((error_iff_inner_error (Sample.scripted Sample.failing) Sample.double () 1 0).2.1 none
      Sample.exhausted 2).2 ⟨rfl, none, rfl⟩,
    (error_iff_inner_error (Sample.scripted Sample.failing) Sample.double () 1 1).2.2.1 none
      Sample.exhausted 2 7 rfl,
    (error_iff_inner_error (Sample.scripted Sample.failing) Sample.double () 1 0).2.2.2 none
      Sample.exhausted 2 7 rfl⟩

/-- C6: `Count`, `Min`, `Size` and `DocumentMatchPoolSize` of a decorated searcher are the inner
searcher's calls, `Close` is the inner `Close`, whatever `T` is; with an invocation counter
added, each of them leaves the counter alone, so none of them runs `T`. -/
theorem passthrough_operations {W Ctx : Type} (s : search.Searcher W Ctx) (T : Custom W) :
    (CustomScoreSearcher.mk (some s) T).Count = s.Count
    ∧ (CustomScoreSearcher.mk (some s) T).Min = s.Min
    ∧ (CustomScoreSearcher.mk (some s) T).Size = s.Size
    ∧ (CustomScoreSearcher.mk (some s) T).DocumentMatchPoolSize = s.DocumentMatchPoolSize
    ∧ (CustomScoreSearcher.mk (some s) T).Close = s.Close
    ∧ (∀ w k, (CustomScoreSearcher.mk (some s.framed) (counted T)).Count (w, k)
        = (s.Count w).map (fun p => (p.1, (p.2, k))))
    ∧ (∀ w k, (CustomScoreSearcher.mk (some s.framed) (counted T)).Min (w, k)
        = (s.Min w).map (fun p => (p.1, (p.2, k))))
    ∧ (∀ w k, (CustomScoreSearcher.mk (some s.framed) (counted T)).Size (w, k)
        = (s.Size w).map (fun p => (p.1, (p.2, k))))
    ∧ (∀ w k, (CustomScoreSearcher.mk (some s.framed) (counted T)).DocumentMatchPoolSize (w, k)
        = (s.DocumentMatchPoolSize w).map (fun p => (p.1, (p.2, k))))
    ∧ (∀ w k, (CustomScoreSearcher.mk (some s.framed) (counted T)).Close (w, k)
        = (s.Close w).map (fun p => (p.1, (p.2, k)))) := by
  refine ⟨rfl, rfl, rfl, rfl, rfl, ?_, ?_, ?_, ?_, ?_⟩
  · intro w k
    simp only [CustomScoreSearcher.Count, invoke, search.Searcher.framed, framed]
    cases s.Count w <;> rfl
  · intro w k
    simp only [CustomScoreSearcher.Min, invoke, search.Searcher.framed, framed]
    cases s.Min w <;> rfl
  · intro w k
    simp only [CustomScoreSearcher.Size, invoke, search.Searcher.framed, framed]
    cases s.Size w <;> rfl
  · intro w k
    simp only [CustomScoreSearcher.DocumentMatchPoolSize, invoke, search.Searcher.framed, framed]
    cases s.DocumentMatchPoolSize w <;> rfl
  · intro w k
    simp only [CustomScoreSearcher.Close, invoke, search.Searcher.framed, framed]
    cases s.Close w <;> rfl

/-- C3: when the inner query's `Searcher` fails with error `e`, the decorated query returns no
searcher and an error that unwraps to `e` and reads "error wrapping searcher: " followed by the
text of `e`; when it succeeds with searcher `s`, the decorated query returns, with no error, the
`CustomScoreSearcher` whose wrapped searcher is `s` and whose transformation is the function
given to `NewCustomScoreQuery`. -/
theorem query_searcher {W Ctx Rd Opt : Type} (Q : bluge.Query W Ctx Rd Opt) (T : Custom W)
    (i : Rd) (options : Opt) (w w1 : W) (so : Option (search.Searcher W Ctx)) :
    (∀ e, Q.Searcher i options w = some ((so, some e), w1) →
      ∃ err, (NewCustomScoreQuery (some Q) T).Searcher i options w = some ((none, some err), w1)
        ∧ err.Unwrap = some e ∧ err.Error = "error wrapping searcher: " ++ e.Error)
    ∧ (Q.Searcher i options w = some ((so, none), w1) →
      ∃ c : CustomScoreSearcher W Ctx, c.wrapped = so ∧ c.custom = T
        ∧ (NewCustomScoreQuery (some Q) T).Searcher i options w
          = some ((some c.toSearcher, none), w1)) := by
  constructor
  · intro e h
    refine ⟨fmt.Errorf "error wrapping searcher: " e, ?_, rfl, rfl⟩
    simp only [CustomScoreQuery.Searcher, NewCustomScoreQuery, invoke, h]
  · intro h
    refine ⟨⟨so, T⟩, rfl, rfl, ?_⟩
    simp only [CustomScoreQuery.Searcher, NewCustomScoreQuery, invoke, h]

/-- Witness for C3: a query failing with "segment closed" yields the error "error wrapping
searcher: segment closed" that unwraps to it; a query succeeding with the two-document script
yields the decorator around that script. -/
theorem query_searcher_witness :
    (∃ err, (NewCustomScoreQuery (some (Sample.constQuery (none, some Sample.exhausted)))
          Sample.double).Searcher () () 0 = some ((none, some err), 0)
        ∧ err.Unwrap = some Sample.exhausted
        ∧ err.Error = "error wrapping searcher: " ++ Sample.exhausted.Error)
    ∧ (∃ c : CustomScoreSearcher Nat Unit, c.wrapped = some (Sample.scripted Sample.twoDocs)
        ∧ c.custom = Sample.double
        ∧ (NewCustomScoreQuery (some (Sample.constQuery
            (some (Sample.scripted Sample.twoDocs), none))) Sample.double).Searcher () () 0
          = some ((some c.toSearcher, none), 0)) :=
  ⟨(query_searcher (Sample.constQuery (none, some Sample.exhausted)) Sample.double () () 0 0
      none).1 Sample.exhausted rfl,
    (query_searcher (Sample.constQuery (some (Sample.scripted Sample.twoDocs), none))
      Sample.double () () 0 0 (some (Sample.scripted Sample.twoDocs))).2 rfl⟩

/-! ## Identity and stacking -/

theorem onError_of_convention (r : search.Result) (h : r.2 ≠ none → r.1 = none) :
    r.onError = r := by
  obtain ⟨m, err⟩ := r
  cases err with
  | none => rfl
  | some e =>
    have hm : m = none := h (by simp)
    subst hm
    rfl

theorem identity_call {W Ctx : Type} (s : search.Searcher W Ctx) (c : Call Ctx) (w : W) :
    (CustomScoreSearcher.toSearcher ⟨some s, identity⟩).call c w
      = (s.call c w).map (fun p => (p.1.onError, p.2)) := by
  cases c with
  | Next ctx =>
    simp only [search.Searcher.call, CustomScoreSearcher.toSearcher, CustomScoreSearcher.Next,
      invoke, identity]
    cases s.Next ctx w with
    | none => rfl
    | some out =>
      obtain ⟨⟨rv, err⟩, w1⟩ := out
      cases err <;> rfl
  | Advance ctx number =>
    simp only [search.Searcher.call, CustomScoreSearcher.toSearcher, CustomScoreSearcher.Advance,
      invoke, identity]
    cases s.Advance ctx number w with
    | none => rfl
    | some out =>
      obtain ⟨⟨rv, err⟩, w1⟩ := out
      cases err <;> rfl

theorem identity_drive {W Ctx : Type} (s : search.Searcher W Ctx) (calls : List (Call Ctx)) :
    ∀ w, (CustomScoreSearcher.toSearcher ⟨some s, identity⟩).drive calls w
      = (s.drive calls w).map (fun p => (p.1.map search.Result.onError, p.2)) := by
  induction calls with
  | nil => intro w; rfl
  | cons c cs ih =>
    intro w
    simp only [search.Searcher.drive, identity_call]
    cases s.call c w with
    | none => rfl
    | some out =>
      obtain ⟨r, w1⟩ := out
      simp only [Option.map_some', ih]
      cases s.drive cs w1 <;> rfl

theorem drive_of_convention {W Ctx : Type} (s : search.Searcher W Ctx)
    (hconv : ∀ c w r w1, s.call c w = some (r, w1) → r.2 ≠ none → r.1 = none)
    (calls : List (Call Ctx)) :
    ∀ w, (s.drive calls w).map (fun p => (p.1.map search.Result.onError, p.2))
      = s.drive calls w := by
  induction calls with
  | nil => intro w; rfl
  | cons c cs ih =>
    intro w
    simp only [search.Searcher.drive]
    cases hc : s.call c w with
    | none => rfl
    | some out =>
      obtain ⟨r, w1⟩ := out
      have ih1 := ih w1
      cases hd : s.drive cs w1 with
      | none => simp only [hd]; rfl
      | some outs =>
        obtain ⟨rs, w2⟩ := outs
        rw [hd] at ih1
        simp only [Option.map_some', Option.some.injEq, Prod.mk.injEq] at ih1
        simp only [hd, Option.map_some', List.map_cons,
          onError_of_convention r (hconv c w r w1 hc), ih1.1]

/-- C4: when the inner query `Q` builds the searcher `s`, the query decorated with the identity
transformation builds a searcher whose results over any sequence of `Next`/`Advance` calls are,
element by element and in order, those of `s` as a client reads them (with an error, the match
is ignored), leaving the same world; when `s` returns either a match, nil or an error, never a
match together with an error, the two sequences are identical. -/
theorem identity_decoration {W Ctx Rd Opt : Type} (Q : bluge.Query W Ctx Rd Opt) (i : Rd)
    (options : Opt) (w w1 : W) (s : search.Searcher W Ctx)
    (hQ : Q.Searcher i options w = some ((some s, none), w1)) :
    ∃ sd, (NewCustomScoreQuery (some Q) identity).Searcher i options w
        = some ((some sd, none), w1)
      ∧ (∀ calls w2, sd.drive calls w2
          = (s.drive calls w2).map (fun p => (p.1.map search.Result.onError, p.2)))
      ∧ ((∀ c w3 r w4, s.call c w3 = some (r, w4) → r.2 ≠ none → r.1 = none) →
          ∀ calls w2, sd.drive calls w2 = s.drive calls w2) := by
  refine ⟨CustomScoreSearcher.toSearcher ⟨some s, identity⟩, ?_, ?_, ?_⟩
  · simp only [CustomScoreQuery.Searcher, NewCustomScoreQuery, invoke, hQ]
  · intro calls w2
    exact identity_drive s calls w2
  · intro hconv calls w2
    rw [identity_drive s calls w2, drive_of_convention s hconv calls w2]

theorem scripted_twoDocs_convention (c : Call Unit) (w : Nat) (r : search.Result) (w1 : Nat)
    (h : (Sample.scripted Sample.twoDocs).call c w = some (r, w1)) (hr : r.2 ≠ none) :
    r.1 = none := by
  have key : ∀ k, (Sample.twoDocs.getD k (none, none)).2 = none := by
    intro k
    match k with
    | 0 => rfl
    | 1 => rfl
    | 2 => rfl
    | _ + 3 => rfl
  cases c with
  | Next ctx =>
    simp only [search.Searcher.call, Sample.scripted, Option.some.injEq, Prod.mk.injEq] at h
    rw [← h.1] at hr
    exact absurd (key _) hr
  | Advance ctx number =>
    simp only [search.Searcher.call, Sample.scripted, Option.some.injEq, Prod.mk.injEq] at h
    rw [← h.1] at hr
    exact absurd (key _) hr

/-- Witness for C4: the identity-decorated query over the two-document script builds a searcher
that, called `Next`, `Advance(1)`, `Next`, returns document 0, document 1 and nil, exactly as the
script does. -/
theorem identity_decoration_witness :
    ∃ sd, (NewCustomScoreQuery (some (Sample.constQuery
          (some (Sample.scripted Sample.twoDocs), none))) identity).Searcher () () 0
        = some ((some sd, none), 0)
      ∧ sd.drive [.Next (), .Advance () 1, .Next ()] 0
        = some ([(some Sample.docA, none), (some Sample.docB, none), (none, none)], 3)
      ∧ sd.drive [.Next (), .Advance () 1, .Next ()] 0
        = (Sample.scripted Sample.twoDocs).drive [.Next (), .Advance () 1, .Next ()] 0 := by
  obtain ⟨sd, h1, _, h3⟩ := identity_decoration
    (Sample.constQuery (some (Sample.scripted Sample.twoDocs), none)) () () 0 0
    (Sample.scripted Sample.twoDocs) rfl
  refine ⟨sd, h1, ?_, h3 scripted_twoDocs_convention _ _⟩
  rw [h3 scripted_twoDocs_convention]
  rfl

theorem stacked_next {W Ctx : Type} (so : Option (search.Searcher W Ctx)) (T1 T2 : Custom W) :
    (CustomScoreSearcher.mk (some (CustomScoreSearcher.toSearcher ⟨so, T1⟩)) T2).Next
      = (CustomScoreSearcher.mk so (andThen T1 T2)).Next := by
  funext ctx w
  simp only [CustomScoreSearcher.Next, CustomScoreSearcher.toSearcher, invoke, andThen]
  cases so with
  | none => rfl
  | some s =>
    simp only
    cases s.Next ctx w with
    | none => rfl
    | some out =>
      obtain ⟨⟨rv, err⟩, w1⟩ := out
      cases err with
      | some e => rfl
      | none =>
        simp only
        cases T1 rv w1 with
        | none => rfl
        | some p => rfl

theorem stacked_advance {W Ctx : Type} (so : Option (search.Searcher W Ctx)) (T1 T2 : Custom W) :
    (CustomScoreSearcher.mk (some (CustomScoreSearcher.toSearcher ⟨so, T1⟩)) T2).Advance
      = (CustomScoreSearcher.mk so (andThen T1 T2)).Advance := by
  funext ctx number w
  simp only [CustomScoreSearcher.Advance, CustomScoreSearcher.toSearcher, invoke, andThen]
  cases so with
  | none => rfl
  | some s =>
    simp only
    cases s.Advance ctx number w with
    | none => rfl
    | some out =>
      obtain ⟨⟨rv, err⟩, w1⟩ := out
      cases err with
      | some e => rfl
      | none =>
        simp only
        cases T1 rv w1 with
        | none => rfl
        | some p => rfl

theorem stacked_searcher {W Ctx : Type} (so : Option (search.Searcher W Ctx)) (T1 T2 : Custom W) :
    CustomScoreSearcher.toSearcher ⟨some (CustomScoreSearcher.toSearcher ⟨so, T1⟩), T2⟩
      = CustomScoreSearcher.toSearcher ⟨so, andThen T1 T2⟩ := by
  simp only [CustomScoreSearcher.toSearcher, search.Searcher.mk.injEq]
  exact ⟨stacked_next so T1 T2, stacked_advance so T1 T2, rfl, rfl, rfl, rfl, rfl⟩

/-- C5: when the inner query `Q` builds the searcher `s`, the query decorated with `T1` and then
with `T2` builds a searcher `st` that returns, for each inner result `m` (nil included) obtained
with no error, exactly `T2 (T1 m)` with no error; `st` is, method by method, the searcher `sc`
built by the single decorator over `Q` with the composed transformation (`T1`, then `T2`). -/
theorem stacked_decorators {W Ctx Rd Opt : Type} (Q : bluge.Query W Ctx Rd Opt)
    (T1 T2 : Custom W) (i : Rd) (options : Opt) (w w1 : W) (s : search.Searcher W Ctx)
    (hQ : Q.Searcher i options w = some ((some s, none), w1)) :
    ∃ st sc,
      (NewCustomScoreQuery (some (NewCustomScoreQuery (some Q) T1).toQuery) T2).Searcher
          i options w = some ((some st, none), w1)
      ∧ (NewCustomScoreQuery (some Q) (andThen T1 T2)).Searcher i options w
          = some ((some sc, none), w1)
      ∧ st = sc
      ∧ (∀ ctx w2 m w3 m1 w4 r w5, s.Next ctx w2 = some ((m, none), w3) →
          T1 m w3 = some (m1, w4) → T2 m1 w4 = some (r, w5) →
          st.Next ctx w2 = some ((r, none), w5))
      ∧ (∀ ctx n w2 m w3 m1 w4 r w5, s.Advance ctx n w2 = some ((m, none), w3) →
          T1 m w3 = some (m1, w4) → T2 m1 w4 = some (r, w5) →
          st.Advance ctx n w2 = some ((r, none), w5)) := by
  refine ⟨CustomScoreSearcher.toSearcher ⟨some (CustomScoreSearcher.toSearcher ⟨some s, T1⟩), T2⟩,
    CustomScoreSearcher.toSearcher ⟨some s, andThen T1 T2⟩, ?_, ?_, ?_, ?_, ?_⟩
  · simp only [CustomScoreQuery.Searcher, CustomScoreQuery.toQuery, NewCustomScoreQuery, invoke,
      hQ]
  · simp only [CustomScoreQuery.Searcher, NewCustomScoreQuery, invoke, hQ]
  · exact stacked_searcher (some s) T1 T2
  · intro ctx w2 m w3 m1 w4 r w5 hs h1 h2
    simp only [CustomScoreSearcher.toSearcher, CustomScoreSearcher.Next, invoke, hs, h1, h2]
  · intro ctx n w2 m w3 m1 w4 r w5 hs h1 h2
    simp only [CustomScoreSearcher.toSearcher, CustomScoreSearcher.Advance, invoke, hs, h1, h2]

set_option maxRecDepth 100000 in
/-- Witness for C5: over the two-document script, decorating with `shift` and then with `double`
turns the first match (document 0, score 3.0) into document 1 with score 6.0, as does the single
decorator with the composed transformation. -/
theorem stacked_decorators_witness :
    ∃ st sc,
      (NewCustomScoreQuery (some (NewCustomScoreQuery (some (Sample.constQuery
          (some (Sample.scripted Sample.twoDocs), none))) Sample.shift).toQuery)
          Sample.double).Searcher () () 0 = some ((some st, none), 0)
      ∧ (NewCustomScoreQuery (some (Sample.constQuery
          (some (Sample.scripted Sample.twoDocs), none)))
          (andThen Sample.shift Sample.double)).Searcher () () 0 = some ((some sc, none), 0)
      ∧ st.Next () 0 = some ((some ⟨1, Float64.six, none⟩, none), 1)
      ∧ sc.Next () 0 = some ((some ⟨1, Float64.six, none⟩, none), 1)
      ∧ st.Advance () 2 0 = some ((none, none), 3) := by
  obtain ⟨st, sc, h1, h2, h3, h5, h6⟩ := stacked_decorators
    (Sample.constQuery (some (Sample.scripted Sample.twoDocs), none)) Sample.shift Sample.double
    () () 0 0 (Sample.scripted Sample.twoDocs) rfl
  refine ⟨st, sc, h1, h2, ?_, ?_, ?_⟩
  · exact h5 () 0 (some Sample.docA) 1 (some ⟨1, Float64.three, none⟩) 1
      (some ⟨1, Float64.six, none⟩) 1 rfl rfl rfl
  · rw [← h3]
    exact h5 () 0 (some Sample.docA) 1 (some ⟨1, Float64.three, none⟩) 1
      (some ⟨1, Float64.six, none⟩) 1 rfl rfl rfl
  · exact h6 () 2 0 none 3 none 3 none 3 rfl rfl rfl

/-! ## The boost transformation -/

theorem walk_visitor (fields : List (String × List Byte)) :
    ∀ b0, boostsDecodable fields →
      ∃ b, Reader.walk main.visitor fields b0 = some (true, b)
        ∧ (lastBoost fields = none → b = b0)
        ∧ (∀ v, lastBoost fields = some v → float64FromBytes v = some b) := by
  induction fields with
  | nil =>
    intro b0 _
    exact ⟨b0, rfl, fun _ => rfl, fun v hv => by simp [lastBoost] at hv⟩
  | cons fv rest ih =>
    intro b0 hdec
    obtain ⟨field, value⟩ := fv
    have hrest : boostsDecodable rest := fun x hx => hdec x (List.mem_cons_of_mem _ hx)
    by_cases hf : field = "boost"
    · obtain ⟨f, hfv⟩ := float64FromBytes_isSome value (hdec (field, value)
        (List.mem_cons_self _ _) hf)
      obtain ⟨b, hw, hnone, hsome⟩ := ih f hrest
      refine ⟨b, ?_, ?_, ?_⟩
      · simp only [Reader.walk, main.visitor, if_pos hf, hfv, hw]
      · intro hl
        simp only [lastBoost, if_pos hf] at hl
        cases hlr : lastBoost rest with
        | none => simp [hlr] at hl
        | some v => simp [hlr] at hl
      · intro v hl
        simp only [lastBoost, if_pos hf] at hl
        cases hlr : lastBoost rest with
        | none =>
          simp only [hlr, Option.some.injEq] at hl
          rw [← hl, hfv, hnone hlr]
        | some v2 =>
          simp only [hlr, Option.some.injEq] at hl
          rw [← hl]
          exact hsome v2 hlr
    · obtain ⟨b, hw, hnone, hsome⟩ := ih b0 hrest
      refine ⟨b, ?_, ?_, ?_⟩
      · simp only [Reader.walk, main.visitor, if_neg hf, hw]
      · intro hl
        simp only [lastBoost, if_neg hf] at hl
        cases hlr : lastBoost rest with
        | none => exact hnone hlr
        | some v => simp [hlr] at hl
      · intro v hl
        simp only [lastBoost, if_neg hf] at hl
        cases hlr : lastBoost rest with
        | none => simp [hlr] at hl
        | some v2 =>
          simp only [hlr, Option.some.injEq] at hl
          rw [← hl]
          exact hsome v2 hlr

theorem visit_visitor (r : Reader) (number : Nat)
    (hdec : boostsDecodable (r.presented number)) :
    ∃ err b, r.VisitStoredFields number main.visitor Float64.one = some (err, b)
      ∧ (lastBoost (r.presented number) = none → b = Float64.one)
      ∧ (∀ v, lastBoost (r.presented number) = some v → float64FromBytes v = some b) := by
  unfold Reader.presented at hdec ⊢
  unfold Reader.VisitStoredFields
  cases hfault : r.fault number with
  | none =>
    simp only [hfault] at hdec
    obtain ⟨b, hw, hnone, hsome⟩ := walk_visitor _ Float64.one hdec
    exact ⟨none, b, by simp only [hw], hnone, hsome⟩
  | some ke =>
    obtain ⟨k, e⟩ := ke
    simp only [hfault] at hdec
    obtain ⟨b, hw, hnone, hsome⟩ := walk_visitor _ Float64.one hdec
    exact ⟨some e, b, by simp only [hw], hnone, hsome⟩

theorem lastBoost_none (fields : List (String × List Byte))
    (h : ∀ fv ∈ fields, fv.1 ≠ "boost") : lastBoost fields = none := by
  induction fields with
  | nil => rfl
  | cons fv rest ih =>
    obtain ⟨field, value⟩ := fv
    have h1 : field ≠ "boost" := h (field, value) (List.mem_cons_self _ _)
    simp only [lastBoost, ih (fun x hx => h x (List.mem_cons_of_mem _ hx)), if_neg h1]

theorem custom_of_visit (r : Reader) (dm : search.DocumentMatch) (err : Option GoError)
    (b : Float64) (hb : r.VisitStoredFields dm.Number main.visitor Float64.one = some (err, b)) :
    main.custom r (some dm) = some (some ⟨dm.Number, dm.Score.mul b,
      match dm.Explanation with
      | none => none
      | some e => some (search.NewExplanation (dm.Score.mul b) "custom, doc_boost * orig_score"
          [search.NewExplanation b "doc_boost, loaded from field 'boost'" [], e])⟩) := by
  simp only [main.custom, hb]

theorem mem_stored_of_presented (r : Reader) (number : Nat) (fv : String × List Byte)
    (h : fv ∈ r.presented number) : fv ∈ r.stored number := by
  unfold Reader.presented at h
  cases hfault : r.fault number with
  | none =>
    simp only [hfault] at h
    exact h
  | some ke =>
    simp only [hfault] at h
    exact List.mem_of_mem_take h

/-- C8, amended: the boost transformation returns nil for nil; for a non-nil match of a document
whose stored `boost` values each hold at least eight bytes it returns the match with the same
document number and the score `original * b`, where `b` is decoded from the `boost` field handed
to the callback (the last one, should there be several) and is `1.0` when the document has no
such field; in that case a score that is not a NaN is kept bit for bit, and a NaN stays a NaN. -/
theorem boost_transformation (r : Reader) (dm : search.DocumentMatch)
    (hdec : boostsDecodable (r.presented dm.Number)) :
    main.custom r none = some none
    ∧ ∃ b dm1, main.custom r (some dm) = some (some dm1)
        ∧ dm1.Number = dm.Number
        ∧ dm1.Score = dm.Score.mul b
        ∧ (∀ v, lastBoost (r.presented dm.Number) = some v → float64FromBytes v = some b)
        ∧ ((∀ fv ∈ r.stored dm.Number, fv.1 ≠ "boost") →
            b = Float64.one ∧ (¬ dm.Score.isNaN → dm1.Score = dm.Score)
              ∧ (dm.Score.isNaN → dm1.Score.isNaN))
        ∧ (r.fault dm.Number = none → r.presented dm.Number = r.stored dm.Number) := by
  refine ⟨rfl, ?_⟩
  obtain ⟨err, b, hv, hnone, hsome⟩ := visit_visitor r dm.Number hdec
  refine ⟨b, _, custom_of_visit r dm err b hv, rfl, rfl, hsome, ?_, ?_⟩
  · intro hno
    have hb := hnone (lastBoost_none _
      (fun fv hfv => hno fv (mem_stored_of_presented r dm.Number fv hfv)))
    subst hb
    exact ⟨rfl, fun hn => Float64.mul_one dm.Score hn, fun hn => Float64.mul_nan _ _ hn⟩
  · intro hf
    simp only [Reader.presented, hf]

/-- C8 as stated fails. Document 0 of the `truncated` index stores a `boost` field of three
bytes: the field is present, yet for the non-nil match of that document the transformation panics
instead of returning the match. -/
theorem boost_transformation_counterexample :
    lastBoost (Sample.truncated.presented 0) = some [0x3F, 0xF0, 0]
    ∧ main.custom Sample.truncated (some ⟨0, Float64.three, none⟩) = none
    ∧ ¬ ∃ dm1, main.custom Sample.truncated (some ⟨0, Float64.three, none⟩)
        = some (some dm1) := by
  have hpanic : main.custom Sample.truncated (some ⟨0, Float64.three, none⟩) = none := rfl
  refine ⟨by decide, hpanic, ?_⟩
  rintro ⟨dm1, h⟩
  rw [hpanic] at h
  exact Option.noConfusion h

set_option maxRecDepth 100000 in
/-- Witness for C8, amended: document 1 stores the boost 2.0, so its match with score 3.0 comes back with
number 1 and score 6.0; document 2 stores no boost, so its match keeps the score 3.0. -/
theorem boost_transformation_witness :
    boostsDecodable (Sample.reader.presented Sample.docB.Number)
    ∧ main.custom Sample.reader none = some none
    ∧ (∃ b dm1, main.custom Sample.reader (some Sample.docB) = some (some dm1)
        ∧ dm1.Number = 1 ∧ b = Float64.two ∧ dm1.Score = Float64.six)
    ∧ (∃ b dm1, main.custom Sample.reader (some ⟨2, Float64.three, none⟩) = some (some dm1)
        ∧ dm1.Number = 2 ∧ b = Float64.one ∧ dm1.Score = Float64.three) := by
  have hdec : boostsDecodable (Sample.reader.presented Sample.docB.Number) := by decide
  obtain ⟨hnil, b, dm1, h1, h2, h3, h4, _, _⟩ :=
    boost_transformation Sample.reader Sample.docB hdec
  have hb : b = Float64.two := by
    have h := h4 [0x40, 0, 0, 0, 0, 0, 0, 0] (by decide)
    exact (Option.some.inj h).symm.trans (by decide)
  obtain ⟨_, c, dm2, k1, k2, _, _, k5, _⟩ :=
    boost_transformation Sample.reader ⟨2, Float64.three, none⟩ (by decide)
  obtain ⟨hc, hkeep, _⟩ := k5 (by decide)
  refine ⟨hdec, hnil, ⟨b, dm1, h1, h2, hb, ?_⟩, ⟨c, dm2, k1, k2, hc, hkeep (by decide)⟩⟩
  rw [h3, hb]
  decide

set_option maxRecDepth 100000 in
/-- C9 as stated fails. Document 3 stores a seven-byte `boost`: the transformation panics instead
of returning. Document 4 stores a nine-byte `boost`: the transformation decodes its first eight
bytes as 2.0 and returns the score 6.0 for the original 3.0 instead of applying the default. -/
theorem boost_unreadable_counterexample :
    (lastBoost (Sample.reader.presented 3) = some [0x40, 0, 0, 0, 0, 0, 0]
      ∧ main.custom Sample.reader (some ⟨3, Float64.three, none⟩) = none)
    ∧ (lastBoost (Sample.reader.presented 4) = some [0x40, 0, 0, 0, 0, 0, 0, 0, 0]
      ∧ main.custom Sample.reader (some ⟨4, Float64.three, none⟩)
          = some (some ⟨4, Float64.six, none⟩)
      ∧ Float64.six ≠ Float64.three) := by
  refine ⟨⟨by decide, ?_⟩, by decide, ?_, by decide⟩
  · rfl
  · have hv : Sample.reader.VisitStoredFields 4 main.visitor Float64.one
        = some (none, Float64.two) := by decide
    rw [custom_of_visit Sample.reader ⟨4, Float64.three, none⟩ none Float64.two hv]
    have hm : Float64.three.mul Float64.two = Float64.six := by decide
    simp only [hm]

/-- C9, amended: when the stored-field visit of the match's document returns an error before
any field named `boost` is reached, the transformation still returns normally and applies the
default boost 1.0: the visit hands back the error with the boost still 1.0, the returned match
has the same number and the score `original * 1.0`, which is the original score bit for bit when
that is not a NaN, and a NaN otherwise. -/
theorem boost_default_on_visit_error (r : Reader) (dm : search.DocumentMatch) (k : Nat)
    (e : GoError) (hfault : r.fault dm.Number = some (k, e))
    (hbefore : ∀ fv ∈ (r.stored dm.Number).take k, fv.1 ≠ "boost") :
    r.VisitStoredFields dm.Number main.visitor Float64.one = some (some e, Float64.one)
    ∧ ∃ dm1, main.custom r (some dm) = some (some dm1)
        ∧ dm1.Number = dm.Number
        ∧ dm1.Score = dm.Score.mul Float64.one
        ∧ (¬ dm.Score.isNaN → dm1.Score = dm.Score)
        ∧ (dm.Score.isNaN → dm1.Score.isNaN) := by
  have hpres : r.presented dm.Number = (r.stored dm.Number).take k := by
    simp only [Reader.presented, hfault]
  have hlast : lastBoost (r.presented dm.Number) = none := by
    rw [hpres]; exact lastBoost_none _ hbefore
  have hdec : boostsDecodable (r.presented dm.Number) := by
    rw [hpres]
    intro fv hfv hname
    exact absurd hname (hbefore fv hfv)
  rw [hpres] at hlast hdec
  obtain ⟨b, hw, hnone, _⟩ := walk_visitor _ Float64.one hdec
  have hb := hnone hlast
  subst hb
  have hv : r.VisitStoredFields dm.Number main.visitor Float64.one
      = some (some e, Float64.one) := by
    simp only [Reader.VisitStoredFields, hfault, hw]
  refine ⟨hv, _, custom_of_visit r dm (some e) Float64.one hv, rfl, rfl, ?_, ?_⟩
  · exact fun hn => Float64.mul_one dm.Score hn
  · exact fun hn => Float64.mul_nan _ _ hn

/-- Witness for C9, amended: visits of document 5 fail after the id, before the stored boost 2.0
is reached; its match with score 3.0 and an explanation comes back with score 3.0. -/
theorem boost_default_on_visit_error_witness :
    Sample.reader.fault 5 = some (1, .errorString "read failed")
    ∧ lastBoost (Sample.reader.stored 5) = some [0x40, 0, 0, 0, 0, 0, 0, 0]
    ∧ ∃ dm1, main.custom Sample.reader (some ⟨5, Float64.three, none⟩) = some (some dm1)
        ∧ dm1.Number = 5 ∧ dm1.Score = Float64.three := by
  obtain ⟨_, dm1, h1, h2, _, h4, _⟩ := boost_default_on_visit_error Sample.reader
    ⟨5, Float64.three, none⟩ 1 (.errorString "read failed") rfl (by decide)
  exact ⟨rfl, by decide, dm1, h1, h2, h4 (by decide)⟩

/-- C10: when the transformation applies the boost `b` to a non-nil match carrying the
explanation `E`, the returned match carries a new explanation whose value is the new score
`original * b`, whose message is "custom, doc_boost * orig_score" and whose children are exactly
two, in order: a childless node with value `b` and message "doc_boost, loaded from field
'boost'", then `E` itself; a match carrying no explanation comes back with none. -/
theorem boost_explanation (r : Reader) (dm : search.DocumentMatch) (err : Option GoError)
    (b : Float64)
    (hb : r.VisitStoredFields dm.Number main.visitor Float64.one = some (err, b)) :
    ∃ dm1, main.custom r (some dm) = some (some dm1)
      ∧ dm1.Score = dm.Score.mul b
      ∧ (∀ E, dm.Explanation = some E →
          ∃ X B, dm1.Explanation = some X
            ∧ X.Value = dm1.Score
            ∧ X.Message = "custom, doc_boost * orig_score"
            ∧ X.Children = [B, E]
            ∧ B.Value = b
            ∧ B.Message = "doc_boost, loaded from field 'boost'"
            ∧ B.Children = [])
      ∧ (dm.Explanation = none → dm1.Explanation = none) := by
  refine ⟨_, custom_of_visit r dm err b hb, rfl, ?_, ?_⟩
  · intro E hE
    refine ⟨search.NewExplanation (dm.Score.mul b) "custom, doc_boost * orig_score"
      [search.NewExplanation b "doc_boost, loaded from field 'boost'" [], E],
      search.NewExplanation b "doc_boost, loaded from field 'boost'" [], ?_, rfl, rfl, rfl, rfl,
      rfl, rfl⟩
    simp only [hE]
  · intro hE
    simp only [hE]

set_option maxRecDepth 100000 in
/-- Witness for C10: document 1 stores the boost 2.0; its match with score 3.0 and the
explanation `explB` comes back with score 6.0 and an explanation of value 6.0 whose children are
the boost node of value 2.0 and `explB`. -/
theorem boost_explanation_witness :
    Sample.reader.VisitStoredFields 1 main.visitor Float64.one = some (none, Float64.two)
    ∧ ∃ dm1, main.custom Sample.reader (some Sample.docB) = some (some dm1)
      ∧ dm1.Score = Float64.six
      ∧ ∃ X B, dm1.Explanation = some X
          ∧ X.Value = Float64.six
          ∧ X.Message = "custom, doc_boost * orig_score"
          ∧ X.Children = [B, Sample.explB]
          ∧ B.Value = Float64.two
          ∧ B.Message = "doc_boost, loaded from field 'boost'"
          ∧ B.Children = [] := by
  have hv : Sample.reader.VisitStoredFields 1 main.visitor Float64.one
      = some (none, Float64.two) := by decide
  obtain ⟨dm1, h1, h2, h3, _⟩ := boost_explanation Sample.reader Sample.docB none Float64.two hv
  obtain ⟨X, B, hX, hXv, hrest⟩ := h3 Sample.explB rfl
  have hm : Float64.three.mul Float64.two = Float64.six := by decide
  have hs : dm1.Score = Float64.six := h2.trans hm
  exact ⟨hv, dm1, h1, hs, X, B, hX, hXv.trans hs, hrest⟩

end CustomScore
